import Mathlib

/-
Verification of the OPIC-HITS frontier backend
(crawlfrontier/contrib/backends/opic/backend.py).

The backend composes a graph store, a page store, an OPIC-HITS score
engine, a frequency estimator, a change detector and a scheduler.  Only
`backend.py` itself ships in this repository; the collaborator stores it
imports (graphdb, pagedb, opichits, freqest, pagechange, scheduler) are
modelled here from the design document's component contracts.  The
backend's own orchestration (`add_seeds`, `page_crawled`,
`request_error`, `get_next_requests`) is translated line by line from
the source.  Every store call made by the backend is additionally
recorded in an event log so that claims about which store operations are
invoked, how often, and in which order can be stated directly.
-/

set_option autoImplicit false

/-- Page fingerprints (stable page identifiers derived from the URL). -/
abbrev Fp := Nat

/-! ### Association-list helpers

The persistent stores are key-value maps; we embed them as association
lists with first-occurrence lookup and in-place update. -/

/-- First-occurrence lookup in an association list. -/
def lookupFp {α : Type} : List (Fp × α) → Fp → Option α
  | [], _ => none
  | (k, v) :: t, fp => if k = fp then some v else lookupFp t fp

/-- Replace the first binding of a key, or append a new binding. -/
def upsert {α : Type} : List (Fp × α) → Fp → α → List (Fp × α)
  | [], fp, v => [(fp, v)]
  | (k, w) :: t, fp, v =>
      if k = fp then (fp, v) :: t else (k, w) :: upsert t fp v

/-- Remove every binding of a key. -/
def removeKey {α : Type} : List (Fp × α) → Fp → List (Fp × α)
  | [], _ => []
  | (k, w) :: t, fp =>
      if k = fp then removeKey t fp else (k, w) :: removeKey t fp

theorem lookupFp_upsert_self {α : Type} (l : List (Fp × α)) (fp : Fp) (v : α) :
    lookupFp (upsert l fp v) fp = some v := by
  induction l with
  | nil => simp [upsert, lookupFp]
  | cons hd t ih =>
      by_cases h : hd.1 = fp
      · simp [upsert, h, lookupFp]
      · simp [upsert, h, lookupFp, ih]

theorem lookupFp_upsert_ne {α : Type} (l : List (Fp × α)) (fp g : Fp) (v : α)
    (h : g ≠ fp) : lookupFp (upsert l fp v) g = lookupFp l g := by
  induction l with
  | nil => simp [upsert, lookupFp, Ne.symm h]
  | cons hd t ih =>
      by_cases hk : hd.1 = fp
      · subst hk
        simp [upsert, lookupFp, Ne.symm h]
      · by_cases hg : hd.1 = g
        · simp [upsert, hk, lookupFp, hg, h]
        · simp [upsert, hk, lookupFp, hg, ih]

theorem upsert_of_lookup_eq {α : Type} (l : List (Fp × α)) (fp : Fp) (v : α)
    (h : lookupFp l fp = some v) : upsert l fp v = l := by
  induction l with
  | nil => simp [lookupFp] at h
  | cons hd t ih =>
      by_cases hk : hd.1 = fp
      · simp [lookupFp, hk] at h
        subst hk
        subst h
        simp [upsert]
      · simp [lookupFp, hk] at h
        simp [upsert, hk, ih h]

theorem lookupFp_removeKey_self {α : Type} (l : List (Fp × α)) (fp : Fp) :
    lookupFp (removeKey l fp) fp = none := by
  induction l with
  | nil => rfl
  | cons hd t ih =>
      by_cases hk : hd.1 = fp
      · simpa [removeKey, hk] using ih
      · simpa [removeKey, hk, lookupFp] using ih

/-! ### Kernel-friendly rational constants

Score and rate arithmetic is over ℚ.  Constants are built with `mkRat`
so that concrete backend states evaluate inside `decide` proofs. -/

/-- The rational 0. -/
def q0 : ℚ := mkRat 0 1

/-- The rational 1. -/
def q1 : ℚ := mkRat 1 1

/-- A natural number as a rational. -/
def natQ (n : Nat) : ℚ := mkRat (Int.ofNat n) 1

/-- Maximum of two rationals. -/
def qmax (a b : ℚ) : ℚ := if a ≤ b then b else a

/-- Minimum of two rationals. -/
def qmin (a b : ℚ) : ℚ := if a ≤ b then a else b

/-- Addition of rationals via `mkRat` (kernel-reducible, exact). -/
def qadd (a b : ℚ) : ℚ :=
  mkRat (a.num * Int.ofNat b.den + b.num * Int.ofNat a.den) (a.den * b.den)

/-- Multiplication of rationals via `mkRat` (kernel-reducible, exact). -/
def qmul (a b : ℚ) : ℚ := mkRat (a.num * b.num) (a.den * b.den)

/-- Division of rationals via `mkRat` (kernel-reducible, exact; division
by zero yields zero, the usual field convention). -/
def qdiv (a b : ℚ) : ℚ :=
  if b.num < 0 then mkRat (-(a.num * Int.ofNat b.den)) (a.den * b.num.natAbs)
  else mkRat (a.num * Int.ofNat b.den) (a.den * b.num.natAbs)

/-! ### Graph store (graphdb) -/

/-- Modelled from the spec: the `graphdb` module is not under `src/`.
Section 4.1 specifies a durable adjacency list with idempotent
`AddNode`/`AddEdge` and batched mutation; batch brackets are recorded in
the backend event log. -/
structure GraphDB where
  nodes : List Fp
  edges : List (Fp × Fp)
deriving DecidableEq

/-- Modelled from the spec: idempotent registration of a page id (§4.1). -/
def GraphDB.addNode (g : GraphDB) (fp : Fp) : GraphDB :=
  if fp ∈ g.nodes then g else { g with nodes := g.nodes ++ [fp] }

/-- Modelled from the spec: idempotent registration of a directed link
(§4.1: adding an existing edge is a no-op). -/
def GraphDB.addEdge (g : GraphDB) (src dst : Fp) : GraphDB :=
  if (src, dst) ∈ g.edges then g else { g with edges := g.edges ++ [(src, dst)] }

/-- Modelled from the spec: out-links of a page (§4.1 `Neighbors`). -/
def GraphDB.outNeighbors (g : GraphDB) (fp : Fp) : List Fp :=
  (g.edges.filter (fun e => e.1 = fp)).map (fun e => e.2)

/-! ### Page store (pagedb) -/

/-- URL and owning domain of a page (pagedb.PageData); URLs and domain
names are abstracted to numeric codes. -/
structure PageData where
  url : Nat
  domain : Nat
deriving DecidableEq

/-- Modelled from the spec: the `pagedb` module is not under `src/`.
Section 3 makes a Page immutable once created, so a second `add` for an
existing fingerprint is a no-op. -/
structure PageDB where
  entries : List (Fp × PageData)
deriving DecidableEq

/-- Modelled from the spec: register page data on first sighting (§3). -/
def PageDB.add (p : PageDB) (fp : Fp) (d : PageData) : PageDB :=
  match lookupFp p.entries fp with
  | some _ => p
  | none => { entries := p.entries ++ [(fp, d)] }

/-- Lookup of the page data backing `_get_request_from_id`. -/
def PageDB.get (p : PageDB) (fp : Fp) : Option PageData :=
  lookupFp p.entries fp

/-! ### Change detector (pagechange) -/

/-- Classification of a fetched body (pagechange.Status). -/
inductive PageStatus where
  | NEW
  | UNCHANGED
  | UPDATED
deriving DecidableEq

/-- Modelled from the spec: the `pagechange` module is not under `src/`.
Section 4.4 stores one content digest per page; the digest is
content-addressed and collision-resistant, which we embed as the body
itself (an injective digest). -/
structure PageChange where
  digests : List (Fp × List Nat)
deriving DecidableEq

/-- Modelled from the spec: classify a body against the stored digest
(§4.4): `NEW` when no digest exists, `UPDATED` when it differs (the new
digest replaces the stored one), `UNCHANGED` otherwise. -/
def PageChange.update (pc : PageChange) (fp : Fp) (body : List Nat) :
    PageStatus × PageChange :=
  match lookupFp pc.digests fp with
  | none => (.NEW, { digests := upsert pc.digests fp body })
  | some d =>
      if d = body then (.UNCHANGED, pc)
      else (.UPDATED, { digests := upsert pc.digests fp body })

/-! ### Frequency estimator (freqest) -/

/-- Per-page history of the frequency estimator: smoothed change rate,
time of the last observed change, time of the last observation. -/
structure FreqEntry where
  rate : ℚ
  lastChange : Option Nat
  lastSeen : Option Nat
deriving DecidableEq

/-- Modelled from the spec: the `freqest` module is not under `src/`.
Section 4.3 specifies a default rate, per-page observation history and a
rate estimate clamped to configurable bounds. -/
structure FreqEstimator where
  defaultFreq : ℚ
  minFreq : ℚ
  maxFreq : ℚ
  entries : List (Fp × FreqEntry)
deriving DecidableEq

/-- Modelled from the spec: register a page with the configured default
rate and no history (§4.3 `Add`). -/
def FreqEstimator.add (fe : FreqEstimator) (fp : Fp) : FreqEstimator :=
  { fe with entries := upsert fe.entries fp ⟨fe.defaultFreq, none, none⟩ }

/-- Modelled from the spec: record an observation at the current time
(§4.3 `Refresh`); when `changed`, the elapsed time since the last change
updates a smoothed rate estimate, otherwise only the last-seen timestamp
advances. -/
def FreqEstimator.refresh (fe : FreqEstimator) (fp : Fp) (changed : Bool)
    (now : Nat) : FreqEstimator :=
  let e := (lookupFp fe.entries fp).getD ⟨fe.defaultFreq, none, none⟩
  let e' :=
    if changed then
      match e.lastChange with
      | some t =>
          let dt := now - t
          let obs : ℚ := if dt = 0 then e.rate else qdiv q1 (natQ dt)
          ⟨qdiv (qadd e.rate obs) (natQ 2), some now, some now⟩
      | none => ⟨e.rate, some now, some now⟩
    else ⟨e.rate, e.lastChange, some now⟩
  { fe with entries := upsert fe.entries fp e' }

/-- Modelled from the spec: current best rate estimate, clamped to the
configured minimum and maximum (§4.3 `Frequency`). -/
def FreqEstimator.frequency (fe : FreqEstimator) (fp : Fp) : ℚ :=
  qmax fe.minFreq (qmin fe.maxFreq
    ((lookupFp fe.entries fp).getD ⟨fe.defaultFreq, none, none⟩).rate)

/-! ### Scheduler (scheduler.Optimal) -/

/-- Modelled from the spec: the `scheduler` module is not under `src/`.
Section 4.5 keys a composite priority `rate * value` by fingerprint;
`Delete` permanently removes a page from scheduling (§4.5, §6), and the
§8 scenario demands that a deleted page is never returned again even if
rediscovered, so deletion is a tombstone: later `SetRate`/`SetValue`
calls on a deleted page do not resurrect its entry. -/
structure Scheduler where
  rates : List (Fp × ℚ)
  values : List (Fp × ℚ)
  deleted : List Fp
deriving DecidableEq

/-- Modelled from the spec: update the revisit-rate input of a page's
priority (§4.5 `SetRate`); ignored for permanently deleted pages. -/
def Scheduler.setRate (sc : Scheduler) (fp : Fp) (r : ℚ) : Scheduler :=
  if fp ∈ sc.deleted then sc else { sc with rates := upsert sc.rates fp r }

/-- Modelled from the spec: update the authority input of a page's
priority (§4.5 `SetValue`); ignored for permanently deleted pages. -/
def Scheduler.setValue (sc : Scheduler) (fp : Fp) (v : ℚ) : Scheduler :=
  if fp ∈ sc.deleted then sc else { sc with values := upsert sc.values fp v }

/-- Modelled from the spec: permanently remove a page from scheduling
(§4.5 `Delete`, used on unrecoverable fetch errors). -/
def Scheduler.delete (sc : Scheduler) (fp : Fp) : Scheduler :=
  { rates := removeKey sc.rates fp
    values := removeKey sc.values fp
    deleted := if fp ∈ sc.deleted then sc.deleted else fp :: sc.deleted }

/-- Revisit-rate input of a page (0 when absent). -/
def Scheduler.rateOf (sc : Scheduler) (fp : Fp) : ℚ :=
  (lookupFp sc.rates fp).getD q0

/-- Authority input of a page (0 when absent). -/
def Scheduler.valueOf (sc : Scheduler) (fp : Fp) : ℚ :=
  (lookupFp sc.values fp).getD q0

/-- Modelled from the spec: composite priority `authority * rate`
(§4.5), monotone in both inputs. -/
def Scheduler.priorityOf (sc : Scheduler) (fp : Fp) : ℚ :=
  qmul (sc.valueOf fp) (sc.rateOf fp)

/-- Pages that still have a scheduler entry: every keyed page that has
not been permanently deleted. -/
def Scheduler.eligible (sc : Scheduler) : List Fp :=
  ((sc.rates.map (fun e => e.1) ++ sc.values.map (fun e => e.1)).dedup).filter
    (fun fp => fp ∉ sc.deleted)

/-- Insert a fingerprint into a list ordered by decreasing priority,
ties broken by increasing fingerprint (stable deterministic rule, §4.5). -/
def Scheduler.insertRanked (sc : Scheduler) (fp : Fp) : List Fp → List Fp
  | [] => [fp]
  | g :: t =>
      if sc.priorityOf g < sc.priorityOf fp ∨
          (sc.priorityOf g = sc.priorityOf fp ∧ fp ≤ g) then
        fp :: g :: t
      else g :: insertRanked sc fp t

/-- Order candidates by decreasing priority (fingerprint tie-break). -/
def Scheduler.rankSort (sc : Scheduler) (l : List Fp) : List Fp :=
  l.foldr (fun fp acc => sc.insertRanked fp acc) []

/-- Modelled from the spec: the k highest-priority eligible pages
(§4.5 `GetNextPages`); only strictly positive priorities are returned
(backend.py line 307: best scores "must be strictly positive"). -/
def Scheduler.getNextPages (sc : Scheduler) (k : Nat) : List Fp :=
  (sc.rankSort ((sc.eligible).filter (fun fp => q0 < sc.priorityOf fp))).take k

/-! ### Score engine (opichits.OpicHits) -/

/-- Per-page score-engine record: undistributed cash plus the hub and
authority scores. -/
structure OpicEntry where
  cash : ℚ
  h : ℚ
  a : ℚ
deriving DecidableEq

/-- Modelled from the spec: the `opichits` module is not under `src/`.
Section 4.2 keeps one (cash, h, a) record per page, a set of pages
flagged by `MarkUpdate`, and the time-window configuration passed by
`backend.py` (`time_window=1000.0`). -/
structure OpicHits where
  pages : List (Fp × OpicEntry)
  marked : List Fp
  timeWindow : ℚ
  epsilon : ℚ
deriving DecidableEq

/-- Modelled from the spec: register a page with zero scores and initial
cash ε (§4.2 `AddPage`); a page is created on first sighting only (§3). -/
def OpicHits.addPage (op : OpicHits) (fp : Fp) : OpicHits :=
  match lookupFp op.pages fp with
  | some _ => op
  | none => { op with pages := op.pages ++ [(fp, ⟨op.epsilon, q0, q0⟩)] }

/-- Modelled from the spec: flag a page as just (re-)crawled
(§4.2 `MarkUpdate`); the flags are consumed by the next update cycle. -/
def OpicHits.markUpdate (op : OpicHits) (fp : Fp) : OpicHits :=
  { op with marked := fp :: op.marked }

/-- Modelled from the spec: current score snapshot (§4.2 `GetScores`),
`(0, 0)` for a page the engine does not know. -/
def OpicHits.getScores (op : OpicHits) (fp : Fp) : ℚ × ℚ :=
  match lookupFp op.pages fp with
  | some e => (e.h, e.a)
  | none => (q0, q0)

/-- Cash that the entry `qe` sends to page `p` in one redistribution
step: a page with positive cash spreads it equally over its out-links
(§4.2 step 1). -/
def opicShare (g : GraphDB) (qe : Fp × OpicEntry) (p : Fp) : ℚ :=
  let outs := g.outNeighbors qe.1
  if q0 < qe.2.cash ∧ outs ≠ [] then
    qdiv (qmul (natQ (outs.count p)) qe.2.cash) (natQ outs.length)
  else q0

/-- Modelled from the spec: one full OPIC-HITS update cycle (§4.2
`Update`). Positive cash is redistributed along out-links; dangling
pages return their cash to a pool shared equally by all pages;
authority accumulates the received cash scaled by the senders' hub
scores; hub scores are recomputed as the sum of the out-neighbors'
authorities; authorities are renormalized so their total stays at the
page count; the sets of pages whose hub resp. authority score changed
are returned and the `MarkUpdate` flags are consumed. -/
def OpicHits.update (op : OpicHits) (g : GraphDB) :
    (List Fp × List Fp) × OpicHits :=
  let n : ℚ := natQ op.pages.length
  let pool : ℚ :=
    (op.pages.map (fun qe =>
      if q0 < qe.2.cash ∧ g.outNeighbors qe.1 = [] then qe.2.cash else q0)).foldl qadd q0
  let poolShare : ℚ := if n = q0 then q0 else qdiv pool n
  let recv : Fp → ℚ := fun p =>
    qadd ((op.pages.map (fun qe => opicShare g qe p)).foldl qadd q0) poolShare
  let hitsIn : Fp → ℚ := fun p =>
    (op.pages.map (fun qe => qmul qe.2.h (opicShare g qe p))).foldl qadd q0
  let pages1 := op.pages.map (fun pe =>
    (pe.1, OpicEntry.mk (qadd (if q0 < pe.2.cash then q0 else pe.2.cash) (recv pe.1))
      pe.2.h (qadd pe.2.a (hitsIn pe.1))))
  let aOf : Fp → ℚ := fun p =>
    match lookupFp pages1 p with
    | some e => e.a
    | none => q0
  let pages2 := pages1.map (fun pe =>
    (pe.1, { pe.2 with h := ((g.outNeighbors pe.1).map aOf).foldl qadd q0 }))
  let total : ℚ := (pages2.map (fun pe => pe.2.a)).foldl qadd q0
  let pages3 :=
    if q0 < total then
      pages2.map (fun pe => (pe.1, { pe.2 with a := qdiv (qmul pe.2.a n) total }))
    else pages2
  let hU := (pages3.filter (fun pe => (op.getScores pe.1).1 ≠ pe.2.h)).map (fun pe => pe.1)
  let aU := (pages3.filter (fun pe => (op.getScores pe.1).2 ≠ pe.2.a)).map (fun pe => pe.1)
  ((hU, aU), { op with pages := pages3, marked := [] })

/-! ### Requests, responses and the event log -/

/-- A seed or discovered link handed to the backend: its fingerprint,
URL and domain name (`link.meta['fingerprint']`, `link.url`,
`link.meta['domain']['name']`). -/
structure Link where
  fingerprint : Fp
  url : Nat
  domainName : Nat
deriving DecidableEq

/-- A crawl result handed to `page_crawled`: the page fingerprint from
`response.meta`, the fingerprint of the originating request from
`response.request.meta`, the fetched body (`none` embeds Python `None`)
and the response URL. -/
structure Response where
  fingerprint : Fp
  requestFingerprint : Fp
  body : Option (List Nat)
  url : Nat
deriving DecidableEq

/-- A crawl request produced by `_get_request_from_id`
(crawlfrontier.core.models.Request with fingerprint and domain meta). -/
structure Request where
  url : Nat
  fingerprint : Fp
  domainName : Nat
deriving DecidableEq

/-- One store call made by the backend; the backend state records the
sequence of calls so that claims about which operations are invoked,
how often and in which order can be stated. -/
inductive Event where
  | graphAddNode (fp : Fp)
  | graphAddEdge (src dst : Fp)
  | graphStartBatch
  | graphEndBatch
  | pagesAdd (fp : Fp)
  | pagesStartBatch
  | pagesEndBatch
  | opicAddPage (fp : Fp)
  | opicMarkUpdate (fp : Fp)
  | opicUpdate
  | pagechangeUpdate (fp : Fp) (st : PageStatus)
  | freqAdd (fp : Fp)
  | freqRefresh (fp : Fp) (changed : Bool)
  | schedSetRate (fp : Fp) (rate : ℚ)
  | schedSetValue (fp : Fp) (value : ℚ)
  | schedDelete (fp : Fp)
  | schedGetNextPages (k : Nat)
  | logCrawledWithoutRequest (url : Nat)
deriving DecidableEq

/-- Python exceptions that the modelled code can raise. -/
inductive PyErr where
  | keyError
  | attributeError
deriving DecidableEq

/-! ### Backend state (OpicHitsBackend.__init__) -/

/-- The mutable state of an `OpicHitsBackend` instance: the six stores
wired in `__init__`, the `_pending_requests` set (a duplicate-free list),
a logical clock supplying the observation times used by the frequency
estimator, and the instrumentation log of store calls. -/
structure State where
  graph : GraphDB
  pages : PageDB
  opic : OpicHits
  freqest : FreqEstimator
  pagechange : PageChange
  scheduler : Scheduler
  pending : List Fp
  clock : Nat
  log : List Event
deriving DecidableEq

/-- Backend call to `self._graph.add_node` (records the call). -/
def bGraphAddNode (s : State) (fp : Fp) : State :=
  { s with graph := s.graph.addNode fp, log := s.log ++ [.graphAddNode fp] }

/-- Backend call to `self._graph.add_edge`. -/
def bGraphAddEdge (s : State) (src dst : Fp) : State :=
  { s with graph := s.graph.addEdge src dst, log := s.log ++ [.graphAddEdge src dst] }

/-- Backend call to `self._graph.start_batch`. -/
def bGraphStartBatch (s : State) : State :=
  { s with log := s.log ++ [.graphStartBatch] }

/-- Backend call to `self._graph.end_batch`. -/
def bGraphEndBatch (s : State) : State :=
  { s with log := s.log ++ [.graphEndBatch] }

/-- Backend call to `self._pages.add`. -/
def bPagesAdd (s : State) (fp : Fp) (d : PageData) : State :=
  { s with pages := s.pages.add fp d, log := s.log ++ [.pagesAdd fp] }

/-- Backend call to `self._pages.start_batch`. -/
def bPagesStartBatch (s : State) : State :=
  { s with log := s.log ++ [.pagesStartBatch] }

/-- Backend call to `self._pages.end_batch`. -/
def bPagesEndBatch (s : State) : State :=
  { s with log := s.log ++ [.pagesEndBatch] }

/-- Backend call to `self._opic.add_page`. -/
def bOpicAddPage (s : State) (fp : Fp) : State :=
  { s with opic := s.opic.addPage fp, log := s.log ++ [.opicAddPage fp] }

/-- Backend call to `self._opic.mark_update`. -/
def bOpicMarkUpdate (s : State) (fp : Fp) : State :=
  { s with opic := s.opic.markUpdate fp, log := s.log ++ [.opicMarkUpdate fp] }

/-- Backend call to `self._freqest.add`. -/
def bFreqAdd (s : State) (fp : Fp) : State :=
  { s with freqest := s.freqest.add fp, log := s.log ++ [.freqAdd fp] }

/-- Backend call to `self._freqest.refresh` (observation at the current
logical time). -/
def bFreqRefresh (s : State) (fp : Fp) (changed : Bool) : State :=
  { s with freqest := s.freqest.refresh fp changed s.clock,
           log := s.log ++ [.freqRefresh fp changed] }

/-- Backend call to `self._scheduler.set_rate`. -/
def bSchedSetRate (s : State) (fp : Fp) (r : ℚ) : State :=
  { s with scheduler := s.scheduler.setRate fp r, log := s.log ++ [.schedSetRate fp r] }

/-- Backend call to `self._scheduler.set_value`. -/
def bSchedSetValue (s : State) (fp : Fp) (v : ℚ) : State :=
  { s with scheduler := s.scheduler.setValue fp v, log := s.log ++ [.schedSetValue fp v] }

/-- Backend call to `self._scheduler.delete`. -/
def bSchedDelete (s : State) (fp : Fp) : State :=
  { s with scheduler := s.scheduler.delete fp, log := s.log ++ [.schedDelete fp] }

/-! ### Backend orchestration (translated from backend.py) -/

/-- Body handling at the top of `_update_freqest` (lines 186-190): when
the body is truthy the change detector classifies it, otherwise the
status stays `None`.  Returns the optional status, the detector state
and the event to record. -/
def classifyBody (pc : PageChange) (fp : Fp) (body : Option (List Nat)) :
    Option PageStatus × PageChange × List Event :=
  match body with
  | some b =>
      if b = [] then (none, pc, [])
      else
        let r := PageChange.update pc fp b
        (some r.1, r.2, [.pagechangeUpdate fp r.1])
  | none => (none, pc, [])

/-- `OpicHitsBackend._update_freqest` (lines 184-201): classify the body
when present; call `freqest.add` when the status is `None` or `NEW`,
otherwise `freqest.refresh` with `changed = (status == UPDATED)`; then
push the estimator's current frequency into the scheduler. -/
def update_freqest (s : State) (fp : Fp) (body : Option (List Nat)) : State :=
  let c := classifyBody s.pagechange fp body
  let s1 : State := { s with pagechange := c.2.1, log := s.log ++ c.2.2 }
  let s2 : State :=
    match c.1 with
    | none => bFreqAdd s1 fp
    | some .NEW => bFreqAdd s1 fp
    | some .UPDATED => bFreqRefresh s1 fp true
    | some .UNCHANGED => bFreqRefresh s1 fp false
  bSchedSetRate s2 fp (s2.freqest.frequency fp)

/-- `OpicHitsBackend._update_page_value` (lines 203-209) at its only
call pattern (`value=None`): read the page's scores from the score
engine and push the authority score into the scheduler. -/
def update_page_value (s : State) (fp : Fp) : State :=
  bSchedSetValue s fp (s.opic.getScores fp).2

/-- `OpicHitsBackend._add_new_link` (lines 211-224): register the node
in the graph, the score engine and the page store, then initialize its
frequency estimate and scheduler value. -/
def add_new_link (s : State) (link : Link) : State :=
  let fp := link.fingerprint
  let s1 := bGraphAddNode s fp
  let s2 := bOpicAddPage s1 fp
  let s3 := bPagesAdd s2 fp ⟨link.url, link.domainName⟩
  let s4 := update_freqest s3 fp none
  update_page_value s4 fp

/-- `OpicHitsBackend.add_seeds` (lines 227-242): bracket the loop of
`_add_new_link` calls in graph/page store batches.  Each top-level
backend operation advances the logical clock by one. -/
def add_seeds (s : State) (seeds : List Link) : State :=
  let s0 : State := { s with clock := s.clock + 1 }
  let s1 := bGraphStartBatch s0
  let s2 := bPagesStartBatch s1
  let s3 := seeds.foldl add_new_link s2
  let s4 := bGraphEndBatch s3
  bPagesEndBatch s4

/-- `self._pending_requests.remove(fp)`: Python `set.remove` raises
`KeyError` when the element is absent. -/
def removePending (p : List Fp) (fp : Fp) : Except PyErr (List Fp) :=
  if fp ∈ p then .ok (p.erase fp) else .error .keyError

/-- `OpicHitsBackend.page_crawled` up to (not including) the pending-set
removal (lines 245-264).  Note line 258 of the source: the
`self._graph.end_batch()` call sits inside the `for link in links` loop,
so it runs once per link rather than once after the loop. -/
def pageCrawledPre (s : State) (r : Response) (links : List Link) : State :=
  let s0 : State := { s with clock := s.clock + 1 }
  let fp := r.fingerprint
  let s1 := bPagesStartBatch s0
  let s2 := bGraphStartBatch s1
  let s3 := links.foldl (fun acc link =>
      let acc1 := add_new_link acc link
      let acc2 := bGraphAddEdge acc1 fp link.fingerprint
      bGraphEndBatch acc2) s2
  let s4 := bPagesEndBatch s3
  let s5 := bOpicMarkUpdate s4 fp
  update_freqest s5 fp r.body

/-- `OpicHitsBackend.page_crawled` (lines 245-276): ingest the crawl
result, then remove the originating request from the pending set,
tolerating (and logging) a missing entry exactly as the
`try/except KeyError` of lines 267-272 does. -/
def page_crawled (s : State) (r : Response) (links : List Link) : State :=
  let s6 := pageCrawledPre s r links
  match removePending s6.pending r.requestFingerprint with
  | .ok p => { s6 with pending := p }
  | .error _ => { s6 with log := s6.log ++ [.logCrawledWithoutRequest r.url] }

/-- `OpicHitsBackend.request_error` (lines 279-281): delete the page
from the scheduler; nothing else is touched. -/
def request_error (s : State) (page : Link) : State :=
  bSchedDelete { s with clock := s.clock + 1 } page.fingerprint

/-- `OpicHitsBackend._get_request_from_id` (lines 285-296): build a
`Request` from the page store, `none` when the page is unknown. -/
def get_request_from_id (s : State) (pid : Fp) : Option Request :=
  match s.pages.get pid with
  | some pd => some ⟨pd.url, pid, pd.domain⟩
  | none => none

/-- Python `set.update`: add each element not already present. -/
def listUnion (p : List Fp) (xs : List Fp) : List Fp :=
  xs.foldl (fun acc f => if f ∈ acc then acc else acc ++ [f]) p

/-- `OpicHitsBackend.get_next_requests` (lines 299-317) up to the
request construction: run one score-engine update cycle, refresh the
scheduler value of every page whose authority changed, query the
scheduler for the next pages and add them to the pending set.  Returns
the new state and the fingerprints handed out. -/
def getNextRequestsCore (s : State) (k : Nat) : State × List Fp :=
  let s0 : State := { s with clock := s.clock + 1 }
  let upd := s0.opic.update s0.graph
  let s1 : State := { s0 with opic := upd.2, log := s0.log ++ [.opicUpdate] }
  let s2 := upd.1.2.foldl update_page_value s1
  let np := s2.scheduler.getNextPages k
  let s3 : State := { s2 with log := s2.log ++ [.schedGetNextPages k],
                              pending := listUnion s2.pending np }
  (s3, np)

/-- `OpicHitsBackend.get_next_requests` (lines 299-317): the requests
built from the dispatched fingerprints, plus the new state. -/
def get_next_requests (s : State) (k : Nat) : List (Option Request) × State :=
  let c := getNextRequestsCore s k
  (c.2.map (get_request_from_id c.1), c.1)

/-- One top-level backend call, for stating temporal claims over whole
runs. -/
inductive Op where
  | seeds (ss : List Link)
  | crawled (r : Response) (links : List Link)
  | fetchError (page : Link)
  | pull (k : Nat)

/-- Apply one top-level backend call to the state. -/
def stepOp (s : State) : Op → State
  | .seeds ss => add_seeds s ss
  | .crawled r links => page_crawled s r links
  | .fetchError page => request_error s page
  | .pull k => (getNextRequestsCore s k).1

/-- Apply a sequence of top-level backend calls. -/
def run (s : State) (ops : List Op) : State :=
  ops.foldl stepOp s

/-! ### Object attributes, `frontier_stop` and the score accessors

`h_scores`/`a_scores` (lines 321-333) read `self._scores._closed`, so
their first step is the attribute lookup `self._scores`; in Python that
raises `AttributeError` when the attribute was never assigned.  This
object-level view models exactly the set of attributes assigned on
`self`, plus the closed flags of the five stores released by
`frontier_stop` (lines 171-180). -/

/-- The instance attributes assigned by `OpicHitsBackend.__init__`
(lines 86-107), in assignment order.  No attribute named `_scores` is
ever assigned anywhere in the class. -/
def initAttrs : List String :=
  ["_graph", "_pages", "_opic", "_freqest", "_pagechange", "_scheduler",
   "_test", "_manager", "_pending_requests"]

/-- Attribute-level view of a backend instance: which attributes exist
on `self`, the `test` flag, and whether each store has been closed. -/
structure BackendObj where
  attrs : List String
  test : Bool
  graphClosed : Bool
  pagesClosed : Bool
  opicClosed : Bool
  freqestClosed : Bool
  schedulerClosed : Bool
deriving DecidableEq

/-- A backend as constructed by `__init__` with the given `test` flag:
exactly the `initAttrs` attributes exist and no store is closed. -/
def backendInit (test : Bool) : BackendObj :=
  ⟨initAttrs, test, false, false, false, false, false⟩

/-- `OpicHitsBackend.h_scores` (lines 321-326): evaluating
`self._scores._closed` first looks up the attribute `_scores`, raising
`AttributeError` when it does not exist; the returned dictionary itself
is abstracted to `Unit`. -/
def h_scores (b : BackendObj) : Except PyErr Unit :=
  if "_scores" ∈ b.attrs then .ok () else .error .attributeError

/-- `OpicHitsBackend.a_scores` (lines 328-333): same attribute lookup
`self._scores` as `h_scores`. -/
def a_scores (b : BackendObj) : Except PyErr Unit :=
  if "_scores" ∈ b.attrs then .ok () else .error .attributeError

/-- The five `close()` calls of `frontier_stop` (lines 176-180). -/
def closeAll (b : BackendObj) : BackendObj :=
  { b with graphClosed := true, pagesClosed := true, opicClosed := true,
           freqestClosed := true, schedulerClosed := true }

/-- `OpicHitsBackend.frontier_stop` (lines 171-180): with `test` set it
first evaluates `self.h_scores()` and `self.a_scores()`; an exception
there propagates before any store is closed.  Returns the resulting
object and the raised exception, if any. -/
def frontier_stop (b : BackendObj) : BackendObj × Option PyErr :=
  if b.test then
    match h_scores b with
    | .error e => (b, some e)
    | .ok _ =>
        match a_scores b with
        | .error e => (b, some e)
        | .ok _ => (closeAll b, none)
  else (closeAll b, none)

/-- C10: every call to `h_scores()` or `a_scores()` on a backend
constructed by `__init__` raises `AttributeError`, because they read
`self._scores._closed` and no attribute named `_scores` is ever
assigned; consequently `frontier_stop` on a backend constructed with
`test=True` also raises before closing the stores (all closed flags are
still false afterwards). -/
theorem c10_scores_attribute_missing (t : Bool) :
    h_scores (backendInit t) = .error .attributeError ∧
    a_scores (backendInit t) = .error .attributeError ∧
    frontier_stop (backendInit true) = (backendInit true, some .attributeError) ∧
    (frontier_stop (backendInit true)).1.graphClosed = false ∧
    (frontier_stop (backendInit true)).1.pagesClosed = false ∧
    (frontier_stop (backendInit true)).1.opicClosed = false ∧
    (frontier_stop (backendInit true)).1.freqestClosed = false ∧
    (frontier_stop (backendInit true)).1.schedulerClosed = false := by
  refine ⟨?_, ?_, ?_, ?_, ?_, ?_, ?_, ?_⟩ <;> rfl

/-! ### Frame property of request_error (C7) -/

/-- C7: `request_error` removes the page's entry from the scheduler and
leaves every other component of the state unchanged: graph store (node
and edges remain), page store, score engine, frequency estimator,
change detector and the pending set are identical before and after. -/
theorem c7_request_error_frame (s : State) (page : Link) :
    (request_error s page).graph = s.graph ∧
    (request_error s page).pages = s.pages ∧
    (request_error s page).opic = s.opic ∧
    (request_error s page).freqest = s.freqest ∧
    (request_error s page).pagechange = s.pagechange ∧
    (request_error s page).pending = s.pending ∧
    lookupFp (request_error s page).scheduler.rates page.fingerprint = none ∧
    lookupFp (request_error s page).scheduler.values page.fingerprint = none := by
  refine ⟨rfl, rfl, rfl, rfl, rfl, rfl, ?_, ?_⟩ <;>
    exact lookupFp_removeKey_self _ _

/-! ### Concrete scenario states -/

/-- A small reachable-shaped backend state with one registered page
(fingerprint 0) that already has a strictly positive scheduler priority
and one unit of score-engine cash. -/
def cxState : State :=
  { graph := ⟨[0], []⟩
    pages := ⟨[(0, ⟨10, 20⟩)]⟩
    opic := ⟨[(0, ⟨q1, q0, q0⟩)], [], natQ 1000, q1⟩
    freqest := ⟨q1, q0, natQ 10, []⟩
    pagechange := ⟨[]⟩
    scheduler := ⟨[(0, q1)], [(0, q1)], []⟩
    pending := []
    clock := 0
    log := [] }

/-- A freshly constructed backend state: all stores empty, default
frequency 1 clamped to [0, 10], score-engine cash constant ε = 1. -/
def emptyState : State :=
  { graph := ⟨[], []⟩
    pages := ⟨[]⟩
    opic := ⟨[], [], natQ 1000, q1⟩
    freqest := ⟨q1, q0, natQ 10, []⟩
    pagechange := ⟨[]⟩
    scheduler := ⟨[], [], []⟩
    pending := []
    clock := 0
    log := [] }

/-- Number of occurrences of an event in a log. -/
def countE (l : List Event) (e : Event) : Nat :=
  (l.filter (fun x => decide (x = e))).length

/-- C1: the code does not honor the no-double-dispatch property.  From
`cxState`, the first `get_next_requests(1)` dispatches fingerprint 0 and
marks it pending, and — with no `page_crawled`/`request_error` call in
between — the second `get_next_requests(1)` returns fingerprint 0 again
while it is still pending: the TODO at backend.py line 308 ("filter out
pending requests") is not implemented. -/
theorem c1_double_dispatch_eval :
    (getNextRequestsCore cxState 1).2 = [0] ∧
    0 ∈ ((getNextRequestsCore cxState 1).1).pending ∧
    (getNextRequestsCore ((getNextRequestsCore cxState 1).1) 1).2 = [0] := by
  decide

/-- C2 counterexample: fingerprint 0 is returned by a pull (so it is
pending), then `request_error` for it is processed, yet 0 is still in
the pending set afterwards — `request_error` (backend.py lines 279-281)
only deletes the page from the scheduler and never touches
`_pending_requests`, contradicting the claim that processing
`request_error` removes the fingerprint from the pending set. -/
theorem c2_request_error_keeps_pending_cx :
    (getNextRequestsCore cxState 1).2 = [0] ∧
    0 ∈ ((getNextRequestsCore cxState 1).1).pending ∧
    0 ∈ (request_error ((getNextRequestsCore cxState 1).1) ⟨0, 10, 20⟩).pending := by
  decide

/-- C3: the batching of `page_crawled` is broken by the indentation of
backend.py line 258: `self._graph.end_batch()` sits inside the
`for link in links` loop.  With two discovered links, `start_batch` runs
once but `end_batch` runs twice, and the first `end_batch` precedes the
second `add_edge`; with zero links `end_batch` never runs at all — the
claim's "each invoked exactly once, end_batch after all n add_edge
calls" fails on the code. -/
theorem c3_end_batch_miscount_eval :
    countE (page_crawled emptyState ⟨5, 5, some [9], 50⟩
      [⟨1, 11, 21⟩, ⟨2, 12, 22⟩]).log .graphStartBatch = 1 ∧
    countE (page_crawled emptyState ⟨5, 5, some [9], 50⟩
      [⟨1, 11, 21⟩, ⟨2, 12, 22⟩]).log .graphEndBatch = 2 ∧
    (page_crawled emptyState ⟨5, 5, some [9], 50⟩
      [⟨1, 11, 21⟩, ⟨2, 12, 22⟩]).log.indexOf Event.graphEndBatch <
      (page_crawled emptyState ⟨5, 5, some [9], 50⟩
        [⟨1, 11, 21⟩, ⟨2, 12, 22⟩]).log.indexOf (Event.graphAddEdge 5 2) ∧
    countE (page_crawled emptyState ⟨5, 5, some [9], 50⟩ []).log .graphStartBatch = 1 ∧
    countE (page_crawled emptyState ⟨5, 5, some [9], 50⟩ []).log .graphEndBatch = 0 := by
  decide

/-! ### Small preservation lemmas -/

theorem setRate_deleted (sc : Scheduler) (fp : Fp) (r : ℚ) :
    (sc.setRate fp r).deleted = sc.deleted := by
  unfold Scheduler.setRate
  split <;> rfl

theorem setValue_deleted (sc : Scheduler) (fp : Fp) (v : ℚ) :
    (sc.setValue fp v).deleted = sc.deleted := by
  unfold Scheduler.setValue
  split <;> rfl

theorem mem_listUnion_of_left (x : Fp) (p xs : List Fp) (h : x ∈ p) :
    x ∈ listUnion p xs := by
  induction xs generalizing p with
  | nil => exact h
  | cons f t ih =>
      show x ∈ listUnion (if f ∈ p then p else p ++ [f]) t
      by_cases hf : f ∈ p
      · rw [if_pos hf]
        exact ih p h
      · rw [if_neg hf]
        exact ih _ (List.mem_append_left _ h)

theorem mem_listUnion_of_right (x : Fp) (p xs : List Fp) (h : x ∈ xs) :
    x ∈ listUnion p xs := by
  induction xs generalizing p with
  | nil => cases h
  | cons f t ih =>
      show x ∈ listUnion (if f ∈ p then p else p ++ [f]) t
      rcases List.mem_cons.mp h with rfl | hx
      · apply mem_listUnion_of_left
        by_cases hf : x ∈ p
        · rw [if_pos hf]
          exact hf
        · rw [if_neg hf]
          exact List.mem_append_right _ (List.mem_singleton_self x)
      · exact ih _ hx

/-- Components of the state preserved by `_update_page_value`, and the
log it appends. -/
theorem foldl_upv_parts (aU : List Fp) (t : State) :
    ((aU.foldl update_page_value t).graph = t.graph) ∧
    ((aU.foldl update_page_value t).pages = t.pages) ∧
    ((aU.foldl update_page_value t).opic = t.opic) ∧
    ((aU.foldl update_page_value t).freqest = t.freqest) ∧
    ((aU.foldl update_page_value t).pagechange = t.pagechange) ∧
    ((aU.foldl update_page_value t).pending = t.pending) ∧
    ((aU.foldl update_page_value t).clock = t.clock) ∧
    ((aU.foldl update_page_value t).scheduler.deleted = t.scheduler.deleted) ∧
    ((aU.foldl update_page_value t).log =
      t.log ++ aU.map (fun p => Event.schedSetValue p (t.opic.getScores p).2)) := by
  induction aU generalizing t with
  | nil => simp
  | cons p rest ih =>
      obtain ⟨h1, h2, h3, h4, h5, h6, h7, h8, h9⟩ := ih (update_page_value t p)
      refine ⟨h1, h2, h3, h4, h5, h6, h7, ?_, ?_⟩
      · rw [List.foldl_cons, h8]
        exact setValue_deleted _ _ _
      · rw [List.foldl_cons, h9]
        simp [update_page_value, bSchedSetValue]

/-! ### Shape of get_next_requests (C5) -/

/-- C5: every call to `get_next_requests(maxCount)` runs exactly one
score-engine update cycle, then refreshes the scheduler value of every
page whose authority score changed in that cycle before querying the
scheduler (the appended log is exactly one `opicUpdate`, a
`schedSetValue` per changed page, then the `schedGetNextPages` query),
returns at most `maxCount` requests, and adds every dispatched
fingerprint to the pending set. -/
theorem c5_get_next_requests_shape (s : State) (k : Nat) :
    ((get_next_requests s k).1).length ≤ k ∧
    (getNextRequestsCore s k).1.log =
      s.log ++ Event.opicUpdate ::
        ((s.opic.update s.graph).1.2.map (fun p =>
          Event.schedSetValue p (((s.opic.update s.graph).2.getScores p).2)) ++
        [Event.schedGetNextPages k]) ∧
    (getNextRequestsCore s k).1.opic = (s.opic.update s.graph).2 ∧
    (getNextRequestsCore s k).1.pending =
      listUnion s.pending ((getNextRequestsCore s k).2) ∧
    (∀ f ∈ (getNextRequestsCore s k).2, f ∈ (getNextRequestsCore s k).1.pending) ∧
    ((getNextRequestsCore s k).2).length ≤ k := by
  have hparts := foldl_upv_parts ((s.opic.update s.graph).1.2)
    { s with clock := s.clock + 1,
             opic := (s.opic.update s.graph).2,
             log := s.log ++ [Event.opicUpdate] }
  obtain ⟨hg, hp, ho, hf, hpc, hpe, hc, hd, hl⟩ := hparts
  have hnp : (getNextRequestsCore s k).2 =
      (((s.opic.update s.graph).1.2).foldl update_page_value
        { s with clock := s.clock + 1,
                 opic := (s.opic.update s.graph).2,
                 log := s.log ++ [Event.opicUpdate] }).scheduler.getNextPages k := rfl
  refine ⟨?_, ?_, ?_, ?_, ?_, ?_⟩
  · show ((getNextRequestsCore s k).2.map (get_request_from_id (getNextRequestsCore s k).1)).length ≤ k
    rw [List.length_map, hnp]
    simp [Scheduler.getNextPages]
  · show (((s.opic.update s.graph).1.2).foldl update_page_value _).log ++ [Event.schedGetNextPages k] = _
    rw [hl]
    simp
  · show (((s.opic.update s.graph).1.2).foldl update_page_value _).opic = _
    rw [ho]
  · show listUnion (((s.opic.update s.graph).1.2).foldl update_page_value _).pending _ = _
    rw [hpe]
    rfl
  · intro f hfmem
    show f ∈ listUnion (((s.opic.update s.graph).1.2).foldl update_page_value _).pending _
    exact mem_listUnion_of_right _ _ _ hfmem
  · rw [hnp]
    simp [Scheduler.getNextPages]

/-- Components of the state untouched by `_update_freqest`. -/
theorem update_freqest_parts (s : State) (fp : Fp) (b : Option (List Nat)) :
    (update_freqest s fp b).pending = s.pending ∧
    (update_freqest s fp b).graph = s.graph ∧
    (update_freqest s fp b).pages = s.pages ∧
    (update_freqest s fp b).opic = s.opic ∧
    (update_freqest s fp b).clock = s.clock ∧
    (update_freqest s fp b).scheduler.deleted = s.scheduler.deleted := by
  simp only [update_freqest]
  cases hcb : classifyBody s.pagechange fp b with
  | mk st? rest =>
      cases st? with
      | none => exact ⟨rfl, rfl, rfl, rfl, rfl, setRate_deleted _ _ _⟩
      | some st =>
          cases st <;> exact ⟨rfl, rfl, rfl, rfl, rfl, setRate_deleted _ _ _⟩

/-- The scheduler tombstones are untouched by `_add_new_link`. -/
theorem add_new_link_deleted (s : State) (l : Link) :
    (add_new_link s l).scheduler.deleted = s.scheduler.deleted := by
  show (Scheduler.setValue (update_freqest (bPagesAdd (bOpicAddPage
      (bGraphAddNode s l.fingerprint) l.fingerprint)
      l.fingerprint ⟨l.url, l.domainName⟩) l.fingerprint none).scheduler
      l.fingerprint _).deleted = s.scheduler.deleted
  rw [setValue_deleted]
  exact (update_freqest_parts _ _ _).2.2.2.2.2

/-- The loop body of `page_crawled` (register the link, add the edge,
end the graph batch) keeps the pending set, clock and tombstones. -/
theorem foldl_pcStep_parts (links : List Link) (t : State) (fp : Fp) :
    ((links.foldl (fun acc link =>
        bGraphEndBatch (bGraphAddEdge (add_new_link acc link) fp link.fingerprint)) t).pending
      = t.pending) ∧
    ((links.foldl (fun acc link =>
        bGraphEndBatch (bGraphAddEdge (add_new_link acc link) fp link.fingerprint)) t).clock
      = t.clock) ∧
    ((links.foldl (fun acc link =>
        bGraphEndBatch (bGraphAddEdge (add_new_link acc link) fp link.fingerprint)) t).scheduler.deleted
      = t.scheduler.deleted) := by
  induction links generalizing t with
  | nil => exact ⟨rfl, rfl, rfl⟩
  | cons l rest ih =>
      obtain ⟨h1, h2, h3⟩ :=
        ih (bGraphEndBatch (bGraphAddEdge (add_new_link t l) fp l.fingerprint))
      refine ⟨h1, h2, h3.trans ?_⟩
      show (add_new_link t l).scheduler.deleted = t.scheduler.deleted
      exact add_new_link_deleted t l

/-- The crawl-ingestion phase of `page_crawled` (everything before the
pending-set removal) keeps the pending set and the tombstones. -/
theorem pageCrawledPre_parts (s : State) (r : Response) (links : List Link) :
    (pageCrawledPre s r links).pending = s.pending ∧
    (pageCrawledPre s r links).scheduler.deleted = s.scheduler.deleted := by
  have hfold := foldl_pcStep_parts links
    (bGraphStartBatch (bPagesStartBatch { s with clock := s.clock + 1 })) r.fingerprint
  have huf := update_freqest_parts
    (bOpicMarkUpdate (bPagesEndBatch (links.foldl (fun acc link =>
        bGraphEndBatch (bGraphAddEdge (add_new_link acc link) r.fingerprint link.fingerprint))
      (bGraphStartBatch (bPagesStartBatch { s with clock := s.clock + 1 }))))
      r.fingerprint) r.fingerprint r.body
  exact ⟨huf.1.trans hfold.1, huf.2.2.2.2.2.trans hfold.2.2⟩

/-! ### The pending-set lifecycle (C2) -/

/-- C2, amended: a fingerprint dispatched by `get_next_requests` is in
the pending set from that moment on; `page_crawled` removes the
originating request's fingerprint from the pending set (a no-op when it
is not there); but `request_error` does not remove anything from the
pending set — the backend only deletes the page from the scheduler, so
after an error the fingerprint stays pending. -/
theorem c2_pending_lifecycle_amended (s1 s2 s3 : State) (k : Nat) (fp : Fp)
    (r : Response) (links : List Link) (page : Link)
    (h : fp ∈ (getNextRequestsCore s1 k).2) :
    fp ∈ (getNextRequestsCore s1 k).1.pending ∧
    (page_crawled s2 r links).pending =
      (if r.requestFingerprint ∈ s2.pending then s2.pending.erase r.requestFingerprint
       else s2.pending) ∧
    (request_error s3 page).pending = s3.pending := by
  refine ⟨?_, ?_, rfl⟩
  · show fp ∈ listUnion _ ((getNextRequestsCore s1 k).2)
    exact mem_listUnion_of_right _ _ _ h
  · have hp : (pageCrawledPre s2 r links).pending = s2.pending :=
      (pageCrawledPre_parts s2 r links).1
    simp only [page_crawled, removePending, hp]
    by_cases hm : r.requestFingerprint ∈ s2.pending
    · simp [hm]
    · simp [hm, hp]

/-- Witness for the amended C2 at concrete inputs. -/
theorem c2_pending_lifecycle_witness :
    0 ∈ (getNextRequestsCore cxState 1).1.pending ∧
    (page_crawled emptyState ⟨5, 5, some [9], 50⟩ []).pending =
      (if (5 : Fp) ∈ emptyState.pending then emptyState.pending.erase 5 else emptyState.pending) ∧
    (request_error emptyState ⟨0, 10, 20⟩).pending = emptyState.pending :=
  c2_pending_lifecycle_amended cxState emptyState emptyState 1 0
    ⟨5, 5, some [9], 50⟩ [] ⟨0, 10, 20⟩ (by decide)

/-! ### Estimator update dispatch (C4) -/

/-- C4: for a non-empty body, `_update_freqest` classifies it with the
change detector and then dispatches on the status: `NEW` invokes
`freqest.add`, `UPDATED` invokes `freqest.refresh` with `changed=true`,
`UNCHANGED` invokes `refresh` with `changed=false`; afterwards
`scheduler.set_rate` is called with the estimator's current frequency
for that fingerprint, and (unless the page is tombstoned) the
scheduler's stored rate equals that frequency. -/
theorem c4_estimator_dispatch (s : State) (fp : Fp) (b : List Nat) (st : PageStatus)
    (hb : b ≠ []) (hst : (PageChange.update s.pagechange fp b).1 = st) :
    (update_freqest s fp (some b)).log =
      s.log ++ Event.pagechangeUpdate fp st ::
        (match st with
         | .NEW => Event.freqAdd fp
         | .UPDATED => Event.freqRefresh fp true
         | .UNCHANGED => Event.freqRefresh fp false) ::
        [Event.schedSetRate fp ((update_freqest s fp (some b)).freqest.frequency fp)] ∧
    (fp ∉ s.scheduler.deleted →
      lookupFp (update_freqest s fp (some b)).scheduler.rates fp =
        some ((update_freqest s fp (some b)).freqest.frequency fp)) := by
  have hc : classifyBody s.pagechange fp (some b) =
      (some st, (PageChange.update s.pagechange fp b).2,
        [Event.pagechangeUpdate fp st]) := by
    simp only [classifyBody, if_neg hb]
    rw [hst]
  have key : update_freqest s fp (some b) =
      (let s1 : State := { s with pagechange := (PageChange.update s.pagechange fp b).2,
                                  log := s.log ++ [Event.pagechangeUpdate fp st] }
       let s2 : State := match st with
         | .NEW => bFreqAdd s1 fp
         | .UPDATED => bFreqRefresh s1 fp true
         | .UNCHANGED => bFreqRefresh s1 fp false
       bSchedSetRate s2 fp (s2.freqest.frequency fp)) := by
    simp only [update_freqest, hc]
    cases st <;> rfl
  rw [key]
  cases st with
  | NEW =>
      refine ⟨by simp [bFreqAdd, bSchedSetRate], fun hd => ?_⟩
      show lookupFp (Scheduler.setRate s.scheduler fp _).rates fp = _
      rw [Scheduler.setRate, if_neg hd]
      exact lookupFp_upsert_self _ _ _
  | UPDATED =>
      refine ⟨by simp [bFreqRefresh, bSchedSetRate], fun hd => ?_⟩
      show lookupFp (Scheduler.setRate s.scheduler fp _).rates fp = _
      rw [Scheduler.setRate, if_neg hd]
      exact lookupFp_upsert_self _ _ _
  | UNCHANGED =>
      refine ⟨by simp [bFreqRefresh, bSchedSetRate], fun hd => ?_⟩
      show lookupFp (Scheduler.setRate s.scheduler fp _).rates fp = _
      rw [Scheduler.setRate, if_neg hd]
      exact lookupFp_upsert_self _ _ _

/-- Witness for C4 at a concrete input: a fresh page with body `[1]` is
classified `NEW`, `freqest.add` runs and the scheduler rate is set to
the estimator's (default, clamped) frequency. -/
theorem c4_estimator_dispatch_witness :
    (update_freqest emptyState 0 (some [1])).log =
      emptyState.log ++ Event.pagechangeUpdate 0 .NEW ::
        Event.freqAdd 0 ::
        [Event.schedSetRate 0 ((update_freqest emptyState 0 (some [1])).freqest.frequency 0)] ∧
    (0 ∉ emptyState.scheduler.deleted →
      lookupFp (update_freqest emptyState 0 (some [1])).scheduler.rates 0 =
        some ((update_freqest emptyState 0 (some [1])).freqest.frequency 0)) :=
  c4_estimator_dispatch emptyState 0 [1] .NEW (by decide) (by decide)

/-! ### Permanence of request_error (C6) -/

theorem mem_insertRanked (sc : Scheduler) (f x : Fp) (l : List Fp) :
    x ∈ sc.insertRanked f l ↔ x = f ∨ x ∈ l := by
  induction l with
  | nil => simp [Scheduler.insertRanked]
  | cons g t ih =>
      unfold Scheduler.insertRanked
      split
      · simp
      · simp only [List.mem_cons, ih]
        tauto

theorem mem_rankSort (sc : Scheduler) (l : List Fp) (x : Fp)
    (h : x ∈ sc.rankSort l) : x ∈ l := by
  induction l with
  | nil => exact h
  | cons f t ih =>
      have hx : x = f ∨ x ∈ sc.rankSort t := (mem_insertRanked sc f x _).mp h
      rcases hx with rfl | hx
      · exact List.mem_cons_self _ _
      · exact List.mem_cons_of_mem _ (ih hx)

/-- A page returned by the scheduler still has an entry, so it is not
tombstoned. -/
theorem getNextPages_not_deleted (sc : Scheduler) (k : Nat) (fp : Fp)
    (h : fp ∈ sc.getNextPages k) : fp ∉ sc.deleted := by
  have h1 := List.take_subset k _ h
  have h2 := mem_rankSort sc _ fp h1
  have h3 := (List.mem_filter.mp h2).1
  exact of_decide_eq_true (List.mem_filter.mp h3).2

theorem foldl_add_new_link_deleted (ss : List Link) (t : State) :
    (ss.foldl add_new_link t).scheduler.deleted = t.scheduler.deleted := by
  induction ss generalizing t with
  | nil => rfl
  | cons l rest ih => exact (ih (add_new_link t l)).trans (add_new_link_deleted t l)

theorem add_seeds_deleted (s : State) (ss : List Link) :
    (add_seeds s ss).scheduler.deleted = s.scheduler.deleted :=
  foldl_add_new_link_deleted ss _

theorem page_crawled_deleted (s : State) (r : Response) (links : List Link) :
    (page_crawled s r links).scheduler.deleted = s.scheduler.deleted := by
  have hpre := (pageCrawledPre_parts s r links).2
  simp only [page_crawled]
  cases removePending (pageCrawledPre s r links).pending r.requestFingerprint with
  | ok p => exact hpre
  | error e => exact hpre

theorem gnrc_deleted (s : State) (k : Nat) :
    (getNextRequestsCore s k).1.scheduler.deleted = s.scheduler.deleted :=
  (foldl_upv_parts ((s.opic.update s.graph).1.2)
    { s with clock := s.clock + 1,
             opic := (s.opic.update s.graph).2,
             log := s.log ++ [Event.opicUpdate] }).2.2.2.2.2.2.2.1

theorem request_error_deleted_self (s : State) (page : Link) :
    page.fingerprint ∈ (request_error s page).scheduler.deleted := by
  show page.fingerprint ∈
    (if page.fingerprint ∈ s.scheduler.deleted then s.scheduler.deleted
     else page.fingerprint :: s.scheduler.deleted)
  split
  · assumption
  · exact List.mem_cons_self _ _

theorem request_error_deleted_mem (s : State) (page : Link) (fp : Fp)
    (h : fp ∈ s.scheduler.deleted) : fp ∈ (request_error s page).scheduler.deleted := by
  show fp ∈
    (if page.fingerprint ∈ s.scheduler.deleted then s.scheduler.deleted
     else page.fingerprint :: s.scheduler.deleted)
  split
  · exact h
  · exact List.mem_cons_of_mem _ h

/-- Tombstones only grow: no top-level backend call ever removes a
fingerprint from the scheduler's deleted set. -/
theorem stepOp_deleted_mono (s : State) (o : Op) (fp : Fp)
    (h : fp ∈ s.scheduler.deleted) : fp ∈ (stepOp s o).scheduler.deleted := by
  cases o with
  | seeds ss =>
      show fp ∈ (add_seeds s ss).scheduler.deleted
      rw [add_seeds_deleted]
      exact h
  | crawled r links =>
      show fp ∈ (page_crawled s r links).scheduler.deleted
      rw [page_crawled_deleted]
      exact h
  | fetchError page => exact request_error_deleted_mem s page fp h
  | pull k =>
      show fp ∈ (getNextRequestsCore s k).1.scheduler.deleted
      rw [gnrc_deleted]
      exact h

theorem run_deleted_mono (ops : List Op) (s : State) (fp : Fp)
    (h : fp ∈ s.scheduler.deleted) : fp ∈ (run s ops).scheduler.deleted := by
  induction ops generalizing s with
  | nil => exact h
  | cons o rest ih => exact ih (stepOp s o) (stepOp_deleted_mono s o fp h)

/-- A fingerprint dispatched by `get_next_requests` was not tombstoned
in the state the call started from. -/
theorem gnrc_np_not_deleted (s : State) (k : Nat) (fp : Fp)
    (h : fp ∈ (getNextRequestsCore s k).2) : fp ∉ s.scheduler.deleted := by
  have h2 := getNextPages_not_deleted
    (((s.opic.update s.graph).1.2).foldl update_page_value
      { s with clock := s.clock + 1,
               opic := (s.opic.update s.graph).2,
               log := s.log ++ [Event.opicUpdate] }).scheduler k fp h
  intro hc
  apply h2
  rw [(foldl_upv_parts ((s.opic.update s.graph).1.2)
    { s with clock := s.clock + 1,
             opic := (s.opic.update s.graph).2,
             log := s.log ++ [Event.opicUpdate] }).2.2.2.2.2.2.2.1]
  exact hc

theorem mem_addNode (g : GraphDB) (fp x : Fp) (h : x ∈ g.nodes) :
    x ∈ (g.addNode fp).nodes := by
  unfold GraphDB.addNode
  split
  · exact h
  · exact List.mem_append_left _ h

theorem addEdge_nodes (g : GraphDB) (a b : Fp) : (g.addEdge a b).nodes = g.nodes := by
  unfold GraphDB.addEdge
  split <;> rfl

theorem add_new_link_graph (s : State) (l : Link) :
    (add_new_link s l).graph = s.graph.addNode l.fingerprint :=
  (update_freqest_parts (bPagesAdd (bOpicAddPage
    (bGraphAddNode s l.fingerprint) l.fingerprint) l.fingerprint
    ⟨l.url, l.domainName⟩) l.fingerprint none).2.1

theorem foldl_add_new_link_nodes (ss : List Link) (t : State) (x : Fp)
    (h : x ∈ t.graph.nodes) : x ∈ (ss.foldl add_new_link t).graph.nodes := by
  induction ss generalizing t with
  | nil => exact h
  | cons l rest ih =>
      apply ih
      rw [add_new_link_graph]
      exact mem_addNode _ _ _ h

theorem foldl_pcStep_nodes (links : List Link) (t : State) (fp x : Fp)
    (h : x ∈ t.graph.nodes) :
    x ∈ ((links.foldl (fun acc link =>
        bGraphEndBatch (bGraphAddEdge (add_new_link acc link) fp link.fingerprint)) t)).graph.nodes := by
  induction links generalizing t with
  | nil => exact h
  | cons l rest ih =>
      apply ih
      show x ∈ ((add_new_link t l).graph.addEdge fp l.fingerprint).nodes
      rw [addEdge_nodes, add_new_link_graph]
      exact mem_addNode _ _ _ h

theorem page_crawled_graph (s : State) (r : Response) (links : List Link) :
    (page_crawled s r links).graph = (pageCrawledPre s r links).graph := by
  simp only [page_crawled]
  cases removePending (pageCrawledPre s r links).pending r.requestFingerprint with
  | ok p => rfl
  | error e => rfl

theorem pageCrawledPre_graph (s : State) (r : Response) (links : List Link) :
    (pageCrawledPre s r links).graph =
      ((links.foldl (fun acc link =>
        bGraphEndBatch (bGraphAddEdge (add_new_link acc link) r.fingerprint link.fingerprint))
        (bGraphStartBatch (bPagesStartBatch { s with clock := s.clock + 1 })))).graph :=
  (update_freqest_parts _ _ _).2.1

/-- Graph nodes only grow: no top-level backend call removes a node. -/
theorem stepOp_nodes_mono (s : State) (o : Op) (x : Fp)
    (h : x ∈ s.graph.nodes) : x ∈ (stepOp s o).graph.nodes := by
  cases o with
  | seeds ss =>
      show x ∈ (add_seeds s ss).graph.nodes
      exact foldl_add_new_link_nodes ss _ x h
  | crawled r links =>
      show x ∈ (page_crawled s r links).graph.nodes
      rw [page_crawled_graph, pageCrawledPre_graph]
      exact foldl_pcStep_nodes links _ _ x h
  | fetchError page => exact h
  | pull k =>
      have heq : (getNextRequestsCore s k).1.graph = s.graph :=
        (foldl_upv_parts ((s.opic.update s.graph).1.2)
          { s with clock := s.clock + 1,
                   opic := (s.opic.update s.graph).2,
                   log := s.log ++ [Event.opicUpdate] }).1
      show x ∈ (getNextRequestsCore s k).1.graph.nodes
      rw [heq]
      exact h

theorem run_nodes_mono (ops : List Op) (s : State) (x : Fp)
    (h : x ∈ s.graph.nodes) : x ∈ (run s ops).graph.nodes := by
  induction ops generalizing s with
  | nil => exact h
  | cons o rest ih => exact ih (stepOp s o) (stepOp_nodes_mono s o x h)

/-- C6: after `request_error(P)`, no later `get_next_requests` call ever
returns P again — across any interleaving of further seed ingestions,
crawl completions, errors and pulls, including runs in which P is
rediscovered as a link of another crawled page — even though P remains a
node of the graph store throughout. -/
theorem c6_request_error_permanent (s : State) (page : Link) (pre post : List Op)
    (k : Nat) (hnode : page.fingerprint ∈ s.graph.nodes) :
    page.fingerprint ∉ (getNextRequestsCore (run (request_error s page) pre) k).2 ∧
    page.fingerprint ∈ (run (request_error s page) (pre ++ Op.pull k :: post)).graph.nodes := by
  constructor
  · intro hmem
    exact gnrc_np_not_deleted _ k _ hmem
      (run_deleted_mono pre _ _ (request_error_deleted_self s page))
  · exact run_nodes_mono _ _ _ hnode

/-- Witness for C6: a one-pull run after `request_error` on the page of
`cxState` (which a pull would otherwise dispatch, see the C1 analysis). -/
theorem c6_request_error_permanent_witness :
    (0 : Fp) ∈ cxState.graph.nodes ∧
    ((0 : Fp) ∉ (getNextRequestsCore (run (request_error cxState ⟨0, 10, 20⟩) []) 1).2 ∧
     (0 : Fp) ∈ (run (request_error cxState ⟨0, 10, 20⟩) ([] ++ Op.pull 1 :: [])).graph.nodes) :=
  ⟨by decide, c6_request_error_permanent cxState ⟨0, 10, 20⟩ [] [] 1 (by decide)⟩

/-! ### Tolerated unsolicited completions (C9) -/

/-- `_update_freqest` does not read the pending set: running it on a
state with a different pending set changes only that field of the
result. -/
theorem update_freqest_pending_comm (s : State) (p : List Fp) (fp : Fp)
    (b : Option (List Nat)) :
    update_freqest { s with pending := p } fp b =
      { update_freqest s fp b with pending := p } := by
  simp only [update_freqest]
  cases hcb : classifyBody s.pagechange fp b with
  | mk st? rest =>
      cases st? with
      | none => rfl
      | some st => cases st <;> rfl

/-- `_add_new_link` does not read the pending set. -/
theorem add_new_link_pending_comm (s : State) (p : List Fp) (l : Link) :
    add_new_link { s with pending := p } l = { add_new_link s l with pending := p } := by
  have h := update_freqest_pending_comm
    (bPagesAdd (bOpicAddPage (bGraphAddNode s l.fingerprint) l.fingerprint)
      l.fingerprint ⟨l.url, l.domainName⟩) p l.fingerprint none
  calc add_new_link { s with pending := p } l
      = update_page_value (update_freqest
          { bPagesAdd (bOpicAddPage (bGraphAddNode s l.fingerprint) l.fingerprint)
              l.fingerprint ⟨l.url, l.domainName⟩ with pending := p }
          l.fingerprint none) l.fingerprint := rfl
    _ = update_page_value { update_freqest
          (bPagesAdd (bOpicAddPage (bGraphAddNode s l.fingerprint) l.fingerprint)
             l.fingerprint ⟨l.url, l.domainName⟩) l.fingerprint none with pending := p }
          l.fingerprint := by rw [h]
    _ = { add_new_link s l with pending := p } := rfl

/-- The link-ingestion loop of `page_crawled` does not read the pending
set. -/
theorem foldl_pcStep_pending_comm (links : List Link) (t : State) (p : List Fp)
    (fp : Fp) :
    links.foldl (fun acc link =>
        bGraphEndBatch (bGraphAddEdge (add_new_link acc link) fp link.fingerprint))
        { t with pending := p } =
      { links.foldl (fun acc link =>
          bGraphEndBatch (bGraphAddEdge (add_new_link acc link) fp link.fingerprint)) t
        with pending := p } := by
  induction links generalizing t with
  | nil => rfl
  | cons l rest ih =>
      show rest.foldl _
          (bGraphEndBatch (bGraphAddEdge (add_new_link { t with pending := p } l)
            fp l.fingerprint)) = _
      rw [add_new_link_pending_comm]
      exact ih (bGraphEndBatch (bGraphAddEdge (add_new_link t l) fp l.fingerprint))

/-- The whole crawl-ingestion phase of `page_crawled` does not read the
pending set. -/
theorem pageCrawledPre_pending_comm (s : State) (p : List Fp) (r : Response)
    (links : List Link) :
    pageCrawledPre { s with pending := p } r links =
      { pageCrawledPre s r links with pending := p } := by
  have h1 := foldl_pcStep_pending_comm links
    (bGraphStartBatch (bPagesStartBatch { s with clock := s.clock + 1 })) p r.fingerprint
  have h2 := update_freqest_pending_comm
    (bOpicMarkUpdate (bPagesEndBatch (links.foldl (fun acc link =>
        bGraphEndBatch (bGraphAddEdge (add_new_link acc link) r.fingerprint link.fingerprint))
      (bGraphStartBatch (bPagesStartBatch { s with clock := s.clock + 1 }))))
      r.fingerprint) p r.fingerprint r.body
  calc pageCrawledPre { s with pending := p } r links
      = update_freqest (bOpicMarkUpdate (bPagesEndBatch (links.foldl
          (fun acc link =>
            bGraphEndBatch (bGraphAddEdge (add_new_link acc link) r.fingerprint link.fingerprint))
          { bGraphStartBatch (bPagesStartBatch { s with clock := s.clock + 1 })
            with pending := p })) r.fingerprint) r.fingerprint r.body := rfl
    _ = update_freqest (bOpicMarkUpdate (bPagesEndBatch
          ({ links.foldl (fun acc link =>
              bGraphEndBatch (bGraphAddEdge (add_new_link acc link) r.fingerprint link.fingerprint))
            (bGraphStartBatch (bPagesStartBatch { s with clock := s.clock + 1 }))
            with pending := p })) r.fingerprint) r.fingerprint r.body := by rw [h1]
    _ = update_freqest { bOpicMarkUpdate (bPagesEndBatch (links.foldl
          (fun acc link =>
            bGraphEndBatch (bGraphAddEdge (add_new_link acc link) r.fingerprint link.fingerprint))
          (bGraphStartBatch (bPagesStartBatch { s with clock := s.clock + 1 }))))
          r.fingerprint with pending := p } r.fingerprint r.body := rfl
    _ = { pageCrawledPre s r links with pending := p } := h2

/-- C9: `page_crawled` for a page whose request fingerprint is not in
the pending set does not raise: the modelled `set.remove` does raise
`KeyError`, but the backend catches it, logs the "crawled without
request" debug message, leaves the pending set as it was, and still
applies exactly the same graph, score-engine, change-detector,
estimator and scheduler updates as it would had the page been pending. -/
theorem c9_unsolicited_completion_tolerated (s : State) (r : Response)
    (links : List Link) (h : r.requestFingerprint ∉ s.pending) :
    removePending s.pending r.requestFingerprint = Except.error PyErr.keyError ∧
    (page_crawled s r links).pending = s.pending ∧
    Event.logCrawledWithoutRequest r.url ∈ (page_crawled s r links).log ∧
    (page_crawled s r links).graph =
      (page_crawled { s with pending := r.requestFingerprint :: s.pending } r links).graph ∧
    (page_crawled s r links).opic =
      (page_crawled { s with pending := r.requestFingerprint :: s.pending } r links).opic ∧
    (page_crawled s r links).pagechange =
      (page_crawled { s with pending := r.requestFingerprint :: s.pending } r links).pagechange ∧
    (page_crawled s r links).freqest =
      (page_crawled { s with pending := r.requestFingerprint :: s.pending } r links).freqest ∧
    (page_crawled s r links).scheduler =
      (page_crawled { s with pending := r.requestFingerprint :: s.pending } r links).scheduler := by
  have hp : (pageCrawledPre s r links).pending = s.pending :=
    (pageCrawledPre_parts s r links).1
  have hrp : removePending s.pending r.requestFingerprint = Except.error PyErr.keyError := by
    simp [removePending, h]
  have hbranch : page_crawled s r links =
      { pageCrawledPre s r links with
        log := (pageCrawledPre s r links).log ++ [Event.logCrawledWithoutRequest r.url] } := by
    simp only [page_crawled, hp, hrp]
  have hcomm := pageCrawledPre_pending_comm s (r.requestFingerprint :: s.pending) r links
  have hp2 : (pageCrawledPre { s with pending := r.requestFingerprint :: s.pending }
      r links).pending = r.requestFingerprint :: s.pending :=
    (pageCrawledPre_parts { s with pending := r.requestFingerprint :: s.pending } r links).1
  have hbranch2 : page_crawled { s with pending := r.requestFingerprint :: s.pending } r links =
      { pageCrawledPre { s with pending := r.requestFingerprint :: s.pending } r links with
        pending := s.pending } := by
    simp only [page_crawled, hp2, removePending]
    simp
  refine ⟨hrp, ?_, ?_, ?_, ?_, ?_, ?_, ?_⟩
  · rw [hbranch]
    exact hp
  · rw [hbranch]
    exact List.mem_append_right _ (List.mem_singleton_self _)
  · rw [hbranch, hbranch2, hcomm]
  · rw [hbranch, hbranch2, hcomm]
  · rw [hbranch, hbranch2, hcomm]
  · rw [hbranch, hbranch2, hcomm]
  · rw [hbranch, hbranch2, hcomm]

/-- Witness for C9 at a concrete input: crawl result for fingerprint 7
arrives on a fresh backend whose pending set is empty. -/
theorem c9_unsolicited_completion_witness :
    (7 : Fp) ∉ emptyState.pending ∧
    (removePending emptyState.pending 7 = Except.error PyErr.keyError ∧
     (page_crawled emptyState ⟨7, 7, some [3], 70⟩ [⟨1, 11, 21⟩]).pending = emptyState.pending ∧
     Event.logCrawledWithoutRequest 70 ∈
       (page_crawled emptyState ⟨7, 7, some [3], 70⟩ [⟨1, 11, 21⟩]).log ∧
     (page_crawled emptyState ⟨7, 7, some [3], 70⟩ [⟨1, 11, 21⟩]).graph =
       (page_crawled { emptyState with pending := [7] } ⟨7, 7, some [3], 70⟩ [⟨1, 11, 21⟩]).graph ∧
     (page_crawled emptyState ⟨7, 7, some [3], 70⟩ [⟨1, 11, 21⟩]).opic =
       (page_crawled { emptyState with pending := [7] } ⟨7, 7, some [3], 70⟩ [⟨1, 11, 21⟩]).opic ∧
     (page_crawled emptyState ⟨7, 7, some [3], 70⟩ [⟨1, 11, 21⟩]).pagechange =
       (page_crawled { emptyState with pending := [7] } ⟨7, 7, some [3], 70⟩ [⟨1, 11, 21⟩]).pagechange ∧
     (page_crawled emptyState ⟨7, 7, some [3], 70⟩ [⟨1, 11, 21⟩]).freqest =
       (page_crawled { emptyState with pending := [7] } ⟨7, 7, some [3], 70⟩ [⟨1, 11, 21⟩]).freqest ∧
     (page_crawled emptyState ⟨7, 7, some [3], 70⟩ [⟨1, 11, 21⟩]).scheduler =
       (page_crawled { emptyState with pending := [7] } ⟨7, 7, some [3], 70⟩ [⟨1, 11, 21⟩]).scheduler) :=
  ⟨by decide, c9_unsolicited_completion_tolerated emptyState ⟨7, 7, some [3], 70⟩
    [⟨1, 11, 21⟩] (by decide)⟩

/-! ### Idempotent seed registration (C8): store-level lemmas -/

theorem lookupFp_append_some {α : Type} (l1 l2 : List (Fp × α)) (fp : Fp) (v : α)
    (h : lookupFp l1 fp = some v) : lookupFp (l1 ++ l2) fp = some v := by
  induction l1 with
  | nil => simp [lookupFp] at h
  | cons hd t ih =>
      by_cases hk : hd.1 = fp
      · simp [lookupFp, hk] at h ⊢
        exact h
      · simp [lookupFp, hk] at h ⊢
        exact ih h

theorem lookupFp_append_none {α : Type} (l1 l2 : List (Fp × α)) (fp : Fp)
    (h : lookupFp l1 fp = none) : lookupFp (l1 ++ l2) fp = lookupFp l2 fp := by
  induction l1 with
  | nil => rfl
  | cons hd t ih =>
      by_cases hk : hd.1 = fp
      · simp [lookupFp, hk] at h
      · simp [lookupFp, hk] at h ⊢
        exact ih h

theorem mem_addNode_self (g : GraphDB) (fp : Fp) : fp ∈ (g.addNode fp).nodes := by
  unfold GraphDB.addNode
  split
  · assumption
  · exact List.mem_append_right _ (List.mem_singleton_self _)

theorem addNode_of_mem (g : GraphDB) (fp : Fp) (h : fp ∈ g.nodes) :
    g.addNode fp = g := by
  unfold GraphDB.addNode
  rw [if_pos h]

theorem addPage_lookup_isSome (op : OpicHits) (fp : Fp) :
    (lookupFp (op.addPage fp).pages fp).isSome := by
  unfold OpicHits.addPage
  cases hl : lookupFp op.pages fp with
  | some e => simp [hl]
  | none => simp [lookupFp_append_none _ _ _ hl, lookupFp]

theorem addPage_lookup_ne (op : OpicHits) (fp g : Fp) (hg : g ≠ fp) :
    lookupFp (op.addPage fp).pages g = lookupFp op.pages g := by
  unfold OpicHits.addPage
  cases hl : lookupFp op.pages fp with
  | some e => rfl
  | none =>
      show lookupFp (op.pages ++ [(fp, ⟨op.epsilon, q0, q0⟩)]) g = _
      cases hg2 : lookupFp op.pages g with
      | some e => exact lookupFp_append_some _ _ _ _ hg2
      | none =>
          rw [lookupFp_append_none _ _ _ hg2]
          simp [lookupFp, Ne.symm hg]

theorem addPage_of_isSome (op : OpicHits) (fp : Fp)
    (h : (lookupFp op.pages fp).isSome) : op.addPage fp = op := by
  unfold OpicHits.addPage
  cases hl : lookupFp op.pages fp with
  | some e => rfl
  | none => rw [hl] at h; simp at h

theorem getScores_addPage_ne (op : OpicHits) (fp g : Fp) (hg : g ≠ fp) :
    (op.addPage fp).getScores g = op.getScores g := by
  unfold OpicHits.getScores
  rw [addPage_lookup_ne op fp g hg]

theorem frequency_add_ne (fe : FreqEstimator) (fp g : Fp) (hg : g ≠ fp) :
    (fe.add fp).frequency g = fe.frequency g := by
  unfold FreqEstimator.frequency FreqEstimator.add
  rw [lookupFp_upsert_ne _ _ _ _ hg]

theorem freq_add_noop (fe : FreqEstimator) (fp : Fp)
    (h : lookupFp fe.entries fp = some ⟨fe.defaultFreq, none, none⟩) :
    fe.add fp = fe := by
  unfold FreqEstimator.add
  rw [upsert_of_lookup_eq _ _ _ h]

theorem setValue_rates (sc : Scheduler) (fp : Fp) (v : ℚ) :
    (sc.setValue fp v).rates = sc.rates := by
  unfold Scheduler.setValue
  split <;> rfl

theorem setRate_values (sc : Scheduler) (fp : Fp) (v : ℚ) :
    (sc.setRate fp v).values = sc.values := by
  unfold Scheduler.setRate
  split <;> rfl

theorem setRate_noop (sc : Scheduler) (fp : Fp) (v : ℚ)
    (h : lookupFp sc.rates fp = some v) : sc.setRate fp v = sc := by
  unfold Scheduler.setRate
  split
  · rfl
  · rw [upsert_of_lookup_eq _ _ _ h]

theorem setValue_noop (sc : Scheduler) (fp : Fp) (v : ℚ)
    (h : lookupFp sc.values fp = some v) : sc.setValue fp v = sc := by
  unfold Scheduler.setValue
  split
  · rfl
  · rw [upsert_of_lookup_eq _ _ _ h]

theorem setRate_deleted_noop (sc : Scheduler) (fp : Fp) (v : ℚ)
    (h : fp ∈ sc.deleted) : sc.setRate fp v = sc := by
  unfold Scheduler.setRate
  rw [if_pos h]

theorem setValue_deleted_noop (sc : Scheduler) (fp : Fp) (v : ℚ)
    (h : fp ∈ sc.deleted) : sc.setValue fp v = sc := by
  unfold Scheduler.setValue
  rw [if_pos h]

/-! ### Idempotent seed registration (C8): the registration invariant -/

/-- The state components that the C8 claim compares: graph store, score
engine, frequency estimator and scheduler. -/
def proj (s : State) : GraphDB × OpicHits × FreqEstimator × Scheduler :=
  (s.graph, s.opic, s.freqest, s.scheduler)

/-- What `_add_new_link` leaves behind for a fingerprint that has just
been registered and not touched since: the node exists, the score engine
knows the page, the estimator entry is the fresh default, and the
scheduler either tombstones the page or stores exactly the estimator's
frequency and the engine's authority. -/
def Registered (s : State) (fp : Fp) : Prop :=
  fp ∈ s.graph.nodes ∧
  (lookupFp s.opic.pages fp).isSome ∧
  lookupFp s.freqest.entries fp = some ⟨s.freqest.defaultFreq, none, none⟩ ∧
  (fp ∈ s.scheduler.deleted ∨
    (lookupFp s.scheduler.rates fp = some (s.freqest.frequency fp) ∧
     lookupFp s.scheduler.values fp = some ((s.opic.getScores fp).2)))

theorem add_new_link_opic (s : State) (l : Link) :
    (add_new_link s l).opic = s.opic.addPage l.fingerprint := rfl

theorem add_new_link_freqest (s : State) (l : Link) :
    (add_new_link s l).freqest = s.freqest.add l.fingerprint := rfl

theorem add_new_link_scheduler (s : State) (l : Link) :
    (add_new_link s l).scheduler =
      Scheduler.setValue
        (Scheduler.setRate s.scheduler l.fingerprint
          ((s.freqest.add l.fingerprint).frequency l.fingerprint))
        l.fingerprint
        ((OpicHits.getScores (s.opic.addPage l.fingerprint) l.fingerprint).2) := rfl

/-- `_add_new_link` establishes `Registered` for its own fingerprint. -/
theorem reg_self (s : State) (l : Link) : Registered (add_new_link s l) l.fingerprint := by
  refine ⟨?_, ?_, ?_, ?_⟩
  · rw [add_new_link_graph]
    exact mem_addNode_self _ _
  · rw [add_new_link_opic]
    exact addPage_lookup_isSome _ _
  · rw [add_new_link_freqest]
    exact lookupFp_upsert_self _ _ _
  · rw [add_new_link_scheduler, add_new_link_freqest]
    by_cases hd : l.fingerprint ∈ s.scheduler.deleted
    · left
      rw [setValue_deleted, setRate_deleted]
      exact hd
    · right
      constructor
      · rw [setValue_rates, Scheduler.setRate, if_neg hd]
        exact lookupFp_upsert_self _ _ _
      · rw [Scheduler.setValue, setRate_deleted, if_neg hd, setRate_values]
        rw [add_new_link_opic]
        exact lookupFp_upsert_self _ _ _

/-- `_add_new_link` preserves `Registered` for every fingerprint. -/
theorem reg_preserved (s : State) (l : Link) (g : Fp) (h : Registered s g) :
    Registered (add_new_link s l) g := by
  by_cases hg : g = l.fingerprint
  · subst hg
    exact reg_self s l
  · obtain ⟨h1, h2, h3, h4⟩ := h
    refine ⟨?_, ?_, ?_, ?_⟩
    · rw [add_new_link_graph]
      exact mem_addNode _ _ _ h1
    · rw [add_new_link_opic, addPage_lookup_ne _ _ _ hg]
      exact h2
    · rw [add_new_link_freqest]
      show lookupFp (upsert s.freqest.entries l.fingerprint _) g = _
      rw [lookupFp_upsert_ne _ _ _ _ hg]
      exact h3
    · rw [add_new_link_scheduler]
      rcases h4 with hd | ⟨hr, hv⟩
      · left
        rw [setValue_deleted, setRate_deleted]
        exact hd
      · right
        constructor
        · rw [setValue_rates, add_new_link_freqest, frequency_add_ne _ _ _ hg,
              Scheduler.setRate]
          split
          · exact hr
          · rw [lookupFp_upsert_ne _ _ _ _ hg]
            exact hr
        · rw [add_new_link_opic, getScores_addPage_ne _ _ _ hg, Scheduler.setValue,
              setRate_deleted]
          split
          · rw [setRate_values]
            exact hv
          · rw [setRate_values, lookupFp_upsert_ne _ _ _ _ hg]
            exact hv

/-- On an already-registered fingerprint, `_add_new_link` changes none
of the four C8 components. -/
theorem reg_proj (s : State) (l : Link) (h : Registered s l.fingerprint) :
    proj (add_new_link s l) = proj s := by
  obtain ⟨h1, h2, h3, h4⟩ := h
  have hfe : s.freqest.add l.fingerprint = s.freqest := freq_add_noop _ _ h3
  have hop : s.opic.addPage l.fingerprint = s.opic := addPage_of_isSome _ _ h2
  have hsch : (add_new_link s l).scheduler = s.scheduler := by
    rw [add_new_link_scheduler, hfe, hop]
    rcases h4 with hd | ⟨hr, hv⟩
    · rw [setRate_deleted_noop _ _ _ hd, setValue_deleted_noop _ _ _ hd]
    · rw [setRate_noop _ _ _ hr, setValue_noop _ _ _ hv]
  unfold proj
  rw [add_new_link_graph, addNode_of_mem _ _ h1, add_new_link_opic, hop,
      add_new_link_freqest, hfe, hsch]

/-- Registration through the `add_seeds` loop: every previously
registered fingerprint stays registered and every seed in the list
becomes registered. -/
theorem foldl_reg (ss : List Link) (t : State) (g : Fp)
    (h : Registered t g ∨ ∃ l ∈ ss, l.fingerprint = g) :
    Registered (ss.foldl add_new_link t) g := by
  induction ss generalizing t with
  | nil =>
      rcases h with h | ⟨l, hm, _⟩
      · exact h
      · cases hm
  | cons l rest ih =>
      rcases h with h | ⟨l', hm, hfp⟩
      · exact ih (add_new_link t l) (Or.inl (reg_preserved t l g h))
      · rcases List.mem_cons.mp hm with rfl | hm'
        · subst hfp
          exact ih (add_new_link t l') (Or.inl (reg_self t l'))
        · exact ih (add_new_link t l) (Or.inr ⟨l', hm', hfp⟩)

/-- If every seed of the list is already registered, the `add_seeds`
loop changes none of the four C8 components. -/
theorem foldl_proj (ss : List Link) (t : State)
    (h : ∀ l ∈ ss, Registered t l.fingerprint) :
    proj (ss.foldl add_new_link t) = proj t := by
  induction ss generalizing t with
  | nil => rfl
  | cons l rest ih =>
      have hstep := reg_proj t l (h l (List.mem_cons_self _ _))
      have hrest : ∀ l' ∈ rest, Registered (add_new_link t l) l'.fingerprint :=
        fun l' hm => reg_preserved t l l'.fingerprint (h l' (List.mem_cons_of_mem _ hm))
      exact (ih (add_new_link t l) hrest).trans hstep

/-- C8: running `add_seeds` twice in succession on the same seed list
produces the same graph store, score engine, frequency estimator and
scheduler as running it once: the second pass re-registers only
already-registered pages, so every store update of the second call is a
no-op. -/
theorem c8_add_seeds_idempotent (s : State) (seeds : List Link) :
    proj (add_seeds (add_seeds s seeds) seeds) = proj (add_seeds s seeds) := by
  have hreg : ∀ l ∈ seeds, Registered (add_seeds s seeds) l.fingerprint := by
    intro l hm
    show Registered (seeds.foldl add_new_link
      (bPagesStartBatch (bGraphStartBatch { s with clock := s.clock + 1 }))) l.fingerprint
    exact foldl_reg _ _ _ (Or.inr ⟨l, hm, rfl⟩)
  have hreg2 : ∀ l ∈ seeds, Registered
      (bPagesStartBatch (bGraphStartBatch
        { add_seeds s seeds with clock := (add_seeds s seeds).clock + 1 })) l.fingerprint :=
    fun l hm => hreg l hm
  calc proj (add_seeds (add_seeds s seeds) seeds)
      = proj (seeds.foldl add_new_link
          (bPagesStartBatch (bGraphStartBatch
            { add_seeds s seeds with clock := (add_seeds s seeds).clock + 1 }))) := rfl
    _ = proj (bPagesStartBatch (bGraphStartBatch
          { add_seeds s seeds with clock := (add_seeds s seeds).clock + 1 })) :=
        foldl_proj _ _ hreg2
    _ = proj (add_seeds s seeds) := rfl
